import Mathlib

/-!
Verification of the survey-ranking pipeline in `process_data.py`.

The program loads a spreadsheet, selects the 8 course-rating columns at
0-indexed positions 11-18, derives course names from the column headers,
skips the metadata row, coerces cells to numeric, drops rows with any
missing value, aggregates per-course mean and count, sorts by
(Average Rating ascending, Count descending), writes a CSV and renders a
reversed horizontal bar chart.

The embedding below is a shallow model of that script: spreadsheet cells
are `Cell` (a value that parses as a number, or junk/missing text),
the parsed sheet is a `RawTable` (header row plus body rows), numeric
means are exact rationals, and the top-level control flow (the
try/except around loading, the early return, the files written) is a
function from an abstract input-file state to a trace of events.
-/

namespace ProcessData

/-- A spreadsheet cell, as seen after parsing: either content that
`pd.to_numeric` can parse as a number, or content it cannot
(junk text, `N/A`, or an empty cell). -/
inductive Cell where
  | num (q : ℚ)
  | na (s : String)
deriving DecidableEq

/-- Embedding of `pd.to_numeric(..., errors='coerce')` on one cell:
a parseable cell yields its value, anything else coerces to NaN,
modelled as `none`. -/
def pd_to_numeric : Cell → Option ℚ
  | Cell.num q => some q
  | Cell.na _ => none

/-- The sheet as parsed by `xl.parse(sheet, header=1)`: the header row
(physical row index 1) gives the column labels, `body` holds all rows
below it.  Row 0 of `body` is the metadata row of the survey export. -/
structure RawTable where
  headers : List String
  body : List (List Cell)
deriving DecidableEq

/-- `file_path = 'Grad Program Exit Survey Data 2024.xlsx'` (line 9). -/
def file_path : String := "Grad Program Exit Survey Data 2024.xlsx"

/-- `target_cols_indices = list(range(11, 19))` (line 22): columns L-S. -/
def target_cols_indices : List ℕ := List.range' 11 8

/-- `target_cols = df.columns[target_cols_indices]` (line 23).  The model
totalizes the fancy indexing with a default label; the out-of-range case
(fewer than 19 columns) raises `IndexError` in `run` below. -/
def target_cols (t : RawTable) : List String :=
  target_cols_indices.map (fun i => t.headers.getD i "")

/-- The space character of the `" - "` separator. -/
def sp : Char := Char.ofNat 32

/-- The dash character of the `" - "` separator. -/
def dash : Char := Char.ofNat 45

/-- Prepend a character to the first segment of a split result
(used to build up `str.split` left to right). -/
def consHead (c : Char) : List (List Char) → List (List Char)
  | [] => [[c]]
  | h :: t => (c :: h) :: t

/-- Embedding of Python `s.split(" - ")` on the character list of `s`:
scan left to right, cutting at each non-overlapping occurrence of the
three-character separator `" - "`. -/
def split_sep : List Char → List (List Char)
  | [] => [[]]
  | [c] => [[c]]
  | [c, d] => [[c, d]]
  | c :: d :: e :: rest =>
    if c = sp ∧ d = dash ∧ e = sp then
      [] :: split_sep rest
    else
      consHead c (split_sep (d :: e :: rest))

/-- Embedding of `" - " in col` (line 29): the split has more than one
segment exactly when the separator occurs in the string. -/
def has_sep (col : String) : Bool := decide (1 < (split_sep col.toList).length)

/-- Lines 29-32: `col.split(" - ")[-1]` when the separator occurs,
otherwise the whole header text. -/
def course_name (col : String) : String :=
  if has_sep col then String.mk ((split_sep col.toList).getLastD col.toList) else col

/-- Lines 27-32: the derived course names of the selected columns. -/
def course_names (t : RawTable) : List String :=
  (target_cols t).map course_name

/-- Row access of `df.iloc[_, target_cols_indices]` followed by the
numeric coercion of line 47, for a single body row.  A cell missing
because the row is short is NaN in pandas, hence `none` here. -/
def selectRow (row : List Cell) : List (Option ℚ) :=
  target_cols_indices.map (fun i => pd_to_numeric (row.getD i (Cell.na "")))

/-- Embedding of `dropna` on one row: the row survives with all its
values exactly when no entry is missing. -/
def dropna_row : List (Option ℚ) → Option (List ℚ)
  | [] => some []
  | none :: _ => none
  | some q :: rest => (dropna_row rest).map (fun vs => q :: vs)

/-- Lines 40-50: skip body row 0 (the metadata row), select the course
columns, coerce to numeric, and drop every row containing a missing
value. -/
def data_cleaned (t : RawTable) : List (List ℚ) :=
  ((t.body.drop 1).map selectRow).filterMap dropna_row

/-- `initial_count = len(data)` (line 49), before the drop. -/
def initial_count (t : RawTable) : ℕ := (t.body.drop 1).length

/-- `final_count = len(data)` (line 51), after the drop. -/
def final_count (t : RawTable) : ℕ := (data_cleaned t).length

/-- The cleaned numeric values of course column `j` (0-indexed within
the 8 selected columns). -/
def colValues (t : RawTable) (j : ℕ) : List ℚ :=
  (data_cleaned t).map (fun r => r.getD j 0)

/-- `data.mean()` for one column: the exact arithmetic mean.  (For an
empty column pandas yields NaN; here division by zero yields `0`.) -/
def mean (l : List ℚ) : ℚ := l.sum / l.length

/-- One row of the `stats` frame (lines 55-58), after `reset_index`:
course label, average rating, response count. -/
structure RankingRow where
  course : String
  avgRating : ℚ
  count : ℕ
deriving DecidableEq

instance : Inhabited RankingRow := ⟨⟨"", 0, 0⟩⟩

/-- Build the `stats` rows: the row for the course at offset `j` pairs
its name with the mean and the non-missing count of column `j`. -/
def statsFrom (t : RawTable) : ℕ → List String → List RankingRow
  | _, [] => []
  | j, name :: rest =>
    { course := name
      avgRating := mean (colValues t j)
      count := (colValues t j).length } :: statsFrom t (j + 1) rest

/-- Lines 55-58: the aggregated table, one row per selected column, in
column order (the order before sorting). -/
def stats (t : RawTable) : List RankingRow := statsFrom t 0 (course_names t)

/-- The boolean comparison of line 64: `Average Rating` ascending, ties
broken by `Count` descending. -/
def rank_le (a b : RankingRow) : Bool :=
  decide (a.avgRating < b.avgRating) ||
    (decide (a.avgRating = b.avgRating) && decide (b.count ≤ a.count))

/-- The sort key of line 64 as a relation on rows: strictly better
average, or equal average and at least as large a count. -/
def rank_rel (a b : RankingRow) : Prop :=
  a.avgRating < b.avgRating ∨ (a.avgRating = b.avgRating ∧ b.count ≤ a.count)

/-- Line 64: `stats.sort_values(by=['Average Rating', 'Count'],
ascending=[True, False])`.  pandas uses a stable lexicographic sort when
sorting on several keys; modelled by a stable merge sort. -/
def rankingTable (t : RawTable) : List RankingRow :=
  (stats t).mergeSort rank_le

/-- Line 86: `stats.iloc[::-1]` — slice with step `-1`, i.e. the rows
read off at indices `n-1, n-2, ..., 0`. -/
def iloc_rev (l : List RankingRow) : List RankingRow :=
  (List.range l.length).map (fun i => l.getD (l.length - 1 - i) default)

/-- Line 88: the (course, value) pairs handed to `plt.barh`, taken from
the reversed table. -/
def plot_pairs (t : RawTable) : List (String × ℚ) :=
  (iloc_rev (rankingTable t)).map (fun r => (r.course, r.avgRating))

/-- `output_dir = 'results'` (line 73). -/
def output_dir : String := "results"

/-- `results/program_ranking.csv` (line 76). -/
def csv_path : String := "results/program_ranking.csv"

/-- `results/program_ranking.png` (line 101). -/
def png_path : String := "results/program_ranking.png"

/-- An observable step of the script: console output, directory
creation, or a file written. -/
inductive Event where
  | printed (msg : String)
  | printed_courses (names : List String)
  | printed_cleaning (before after : ℕ)
  | printed_ranking (rows : List RankingRow)
  | made_dir (d : String)
  | wrote_csv (path : String) (rows : List RankingRow)
  | wrote_png (path : String) (pairs : List (String × ℚ))
deriving DecidableEq

/-- The state of the input file when the script starts: absent,
present but not a readable spreadsheet, or readable with parsed
content `t`. -/
inductive InputFile where
  | missing
  | malformed
  | wellFormed (t : RawTable)

/-- An uncaught Python exception escaping `main`. -/
inductive RunError where
  | excelError
  | indexError
deriving DecidableEq

/-- Events that create an output artifact (the `results` directory, the
CSV, or the PNG). -/
def is_output_write : Event → Bool
  | Event.made_dir _ => true
  | Event.wrote_csv _ _ => true
  | Event.wrote_png _ _ => true
  | _ => false

/-- Top-level control flow of `main` (lines 7-103).  A missing file is
the only caught exception: a message is printed and `main` returns
normally having written nothing.  An unreadable spreadsheet raises out
of `pd.ExcelFile`/`parse` uncaught; fewer than 19 columns makes
`df.columns[target_cols_indices]` raise `IndexError` uncaught.
Otherwise the full pipeline runs and both artifacts are written. -/
def run : InputFile → Except RunError (List Event)
  | InputFile.missing =>
    Except.ok
      [Event.printed ("Loading data from " ++ file_path ++ "..."),
       Event.printed ("Error: File " ++ file_path ++ " not found.")]
  | InputFile.malformed => Except.error RunError.excelError
  | InputFile.wellFormed t =>
    if t.headers.length < 19 then Except.error RunError.indexError
    else
      Except.ok
        [Event.printed ("Loading data from " ++ file_path ++ "..."),
         Event.printed_courses (course_names t),
         Event.printed_cleaning (initial_count t) (final_count t),
         Event.printed_ranking (rankingTable t),
         Event.made_dir output_dir,
         Event.wrote_csv csv_path (rankingTable t),
         Event.printed ("Saved ranking to " ++ csv_path),
         Event.wrote_png png_path (plot_pairs t),
         Event.printed ("Saved plot to " ++ png_path)]

/-! ### Concrete example data used by the witnesses -/

/-- The 19 header labels of the example sheet: 11 demographic columns
followed by the 8 course-rating questions. -/
def survey_headers : List String :=
  List.replicate 11 "Meta" ++
    ["Q35_1 - Taxation", "Q35_2 - Financial Accounting", "Q35_3 - Audit",
     "Q35_4 - Managerial Accounting", "Q35_5 - Accounting Systems",
     "Q35_6 - Business Law", "Q35_7 - Data Analytics", "Ethics"]

/-- A fully numeric response row rating every course `q`. -/
def clean_row (q : ℚ) : List Cell :=
  List.replicate 11 (Cell.na "x") ++ List.replicate 8 (Cell.num q)

/-- A response row whose last course cell is the non-numeric `"N/A"`:
its selected cells are `[1,2,3,4,5,6,7,"N/A"]`. -/
def na_row : List Cell :=
  List.replicate 11 (Cell.na "x") ++
    [Cell.num 1, Cell.num 2, Cell.num 3, Cell.num 4, Cell.num 5,
     Cell.num 6, Cell.num 7, Cell.na "N/A"]

/-- The metadata row injected by the survey export. -/
def meta_row : List Cell := List.replicate 19 (Cell.na "ImportId")

/-- The end-to-end example sheet: metadata row plus 10 data rows, 2 of
which contain a non-numeric entry; every course column cleans to the
values `[1,2,1,2,1,2,1,2]`. -/
def ex_table : RawTable :=
  { headers := survey_headers
    body :=
      meta_row ::
        [clean_row 1, clean_row 2, na_row, clean_row 1, clean_row 2,
         clean_row 1, clean_row 2, na_row, clean_row 1, clean_row 2] }

/-- A sheet whose entire dataset is non-numeric: every data row is
dropped by cleaning. -/
def allna_table : RawTable :=
  { headers := survey_headers
    body :=
      meta_row ::
        [List.replicate 19 (Cell.na "junk"), List.replicate 19 (Cell.na "junk")] }

/-! ### Lemmas about the header splitter -/

theorem consHead_ne_nil (c : Char) (xs : List (List Char)) : consHead c xs ≠ [] := by
  cases xs <;> simp [consHead]

theorem split_sep_ne_nil : ∀ l : List Char, split_sep l ≠ []
  | [] => by simp [split_sep]
  | [_] => by simp [split_sep]
  | [_, _] => by simp [split_sep]
  | _ :: d :: e :: rest => by
    simp only [split_sep]
    split
    · simp
    · exact consHead_ne_nil _ _

theorem split_sep_length_one : ∀ l : List Char, (split_sep l).length = 1 → split_sep l = [l]
  | [] => fun _ => rfl
  | [_] => fun _ => rfl
  | [_, _] => fun _ => rfl
  | c :: d :: e :: rest => by
    simp only [split_sep]
    split
    · intro h
      exfalso
      have hne : ¬ (split_sep rest).length = 0 :=
        fun h0 => split_sep_ne_nil rest (List.length_eq_zero.mp h0)
      simp only [List.length_cons] at h
      omega
    · cases hsp : split_sep (d :: e :: rest) with
      | nil => exact absurd hsp (split_sep_ne_nil _)
      | cons hd tl =>
        simp only [consHead, List.length_cons]
        intro htl
        have htl0 : tl = [] := List.length_eq_zero.mp (by omega)
        subst htl0
        have hone := split_sep_length_one (d :: e :: rest) (by rw [hsp]; rfl)
        rw [hsp] at hone
        have : hd = d :: e :: rest := by injection hone
        rw [this]

theorem split_sep_of_no_occurrence :
    ∀ l : List Char, ¬ List.IsInfix [sp, dash, sp] l → split_sep l = [l]
  | [] => fun _ => rfl
  | [_] => fun _ => rfl
  | [_, _] => fun _ => rfl
  | c :: d :: e :: rest => fun hn => by
    simp only [split_sep]
    split
    · exfalso
      rename_i hcond
      obtain ⟨hc, hd, he⟩ := hcond
      subst hc; subst hd; subst he
      exact hn ⟨[], rest, rfl⟩
    · rw [split_sep_of_no_occurrence (d :: e :: rest)
        (fun h => hn (List.infix_cons h))]
      rfl

theorem getLastD_congr {α : Type u} :
    ∀ (l : List α) (d₁ d₂ : α), l ≠ [] → l.getLastD d₁ = l.getLastD d₂
  | [], _, _, h => absurd rfl h
  | [_], _, _, _ => rfl
  | a :: b :: t, d₁, d₂, _ => by
    simp only [List.getLastD_cons]

/-! ### Lemmas about row cleaning -/

theorem dropna_row_isSome_iff :
    ∀ cells : List (Option ℚ), (dropna_row cells).isSome = true ↔ ∀ o ∈ cells, o ≠ none
  | [] => by simp [dropna_row]
  | none :: rest => by simp [dropna_row]
  | some q :: rest => by
    simp [dropna_row, dropna_row_isSome_iff rest]

theorem dropna_row_length :
    ∀ {cells : List (Option ℚ)} {vs : List ℚ}, dropna_row cells = some vs →
      vs.length = cells.length := by
  intro cells
  induction cells with
  | nil =>
    intro vs h
    simp only [dropna_row, Option.some.injEq] at h
    rw [← h]
    rfl
  | cons o rest ih =>
    intro vs h
    cases o with
    | none => simp [dropna_row] at h
    | some q =>
      simp only [dropna_row, Option.map_eq_some'] at h
      obtain ⟨ws, hw, hvs⟩ := h
      rw [← hvs]
      simp [ih hw]

theorem selectRow_length (row : List Cell) : (selectRow row).length = 8 := by
  simp [selectRow, target_cols_indices]

/-- C2: cleaning is row-wise and all-or-nothing — a row of the selected 8
course columns survives cleaning if and only if every one of its 8 cells
parses as numeric; a surviving row keeps all 8 values, and a row with at
least one non-numeric or missing cell is dropped entirely. -/
theorem c2_row_cleaning (row : List Cell) :
    ((dropna_row (selectRow row)).isSome = true ↔ ∀ o ∈ selectRow row, o ≠ none) ∧
    (∀ vs, dropna_row (selectRow row) = some vs → vs.length = 8) ∧
    ((∃ o ∈ selectRow row, o = none) → dropna_row (selectRow row) = none) := by
  refine ⟨dropna_row_isSome_iff _, ?_, ?_⟩
  · intro vs h
    rw [dropna_row_length h, selectRow_length]
  · rintro ⟨o, ho, hnone⟩
    cases h : dropna_row (selectRow row) with
    | none => rfl
    | some vs =>
      exfalso
      have hall := (dropna_row_isSome_iff (selectRow row)).mp (by rw [h]; rfl)
      exact hall o ho hnone

/-- Witness for C2: the row whose selected cells are
`[1,2,3,4,5,6,7,"N/A"]` is dropped entirely. -/
theorem c2_row_cleaning_witness :
    (∃ o ∈ selectRow na_row, o = none) ∧ dropna_row (selectRow na_row) = none :=
  ⟨by decide, (c2_row_cleaning na_row).2.2 (by decide)⟩

/-- C3: for every selected column header, the derived course name is the
final segment of the header split on the separator; a header without the
separator is kept whole; `"Q35_1 - Taxation"` yields `"Taxation"` and
`"Ethics"` yields `"Ethics"`. -/
theorem c3_header_parsing (col : String) :
    course_name col = String.mk ((split_sep col.toList).getLastD []) ∧
    (¬ List.IsInfix [sp, dash, sp] col.toList → course_name col = col) ∧
    course_name "Q35_1 - Taxation" = "Taxation" ∧
    course_name "Ethics" = "Ethics" := by
  refine ⟨?_, ?_, by decide, by decide⟩
  · unfold course_name has_sep
    split
    · exact congrArg String.mk (getLastD_congr _ _ _ (split_sep_ne_nil _))
    · rename_i h
      simp only [decide_eq_true_eq, Nat.lt_iff_add_one_le, Nat.not_le] at h
      have hlen : (split_sep col.toList).length = 1 := by
        have hne : ¬ (split_sep col.toList).length = 0 :=
          fun h0 => split_sep_ne_nil _ (List.length_eq_zero.mp h0)
        omega
      rw [split_sep_length_one _ hlen]
      rfl
  · intro h
    unfold course_name has_sep
    rw [split_sep_of_no_occurrence _ h]
    simp

/-- Witness for C3: the no-separator branch at the concrete header
`"Ethics"`. -/
theorem c3_header_parsing_witness :
    (¬ List.IsInfix [sp, dash, sp] "Ethics".toList) ∧ course_name "Ethics" = "Ethics" :=
  ⟨by decide, (c3_header_parsing "Ethics").2.1 (by decide)⟩

/-! ### Lemmas about aggregation -/

theorem colValues_length (t : RawTable) (j : ℕ) : (colValues t j).length = final_count t := by
  simp [colValues, final_count]

theorem course_names_length (t : RawTable) : (course_names t).length = 8 := by
  simp [course_names, target_cols, target_cols_indices]

theorem statsFrom_map_course (t : RawTable) :
    ∀ (j : ℕ) (names : List String), (statsFrom t j names).map RankingRow.course = names
  | _, [] => rfl
  | j, name :: rest => by
    simp only [statsFrom, List.map_cons]
    rw [statsFrom_map_course t (j + 1) rest]

theorem statsFrom_count (t : RawTable) :
    ∀ (j : ℕ) (names : List String) (r : RankingRow),
      r ∈ statsFrom t j names → r.count = final_count t
  | _, [], _, h => absurd h (List.not_mem_nil _)
  | j, name :: rest, r, h => by
    rcases List.mem_cons.mp h with h0 | h1
    · rw [h0]
      exact colValues_length t j
    · exact statsFrom_count t (j + 1) rest r h1

theorem statsFrom_getD (t : RawTable) :
    ∀ (names : List String) (j k : ℕ), k < names.length →
      (statsFrom t j names).getD k default =
        { course := names.getD k ""
          avgRating := mean (colValues t (j + k))
          count := (colValues t (j + k)).length }
  | [], _, k, hk => absurd hk (by simp)
  | name :: rest, j, 0, _ => by simp [statsFrom]
  | name :: rest, j, k + 1, hk => by
    have ih := statsFrom_getD t rest (j + 1) k (by simpa using Nat.lt_of_succ_lt_succ hk)
    simp only [statsFrom, List.getD_cons_succ]
    rw [ih]
    have harith : j + 1 + k = j + (k + 1) := by omega
    rw [harith]

theorem stats_length (t : RawTable) : (stats t).length = 8 := by
  have : (stats t).length = (course_names t).length := by
    rw [← statsFrom_map_course t 0 (course_names t)]
    exact (List.length_map _ _).symm
  rw [this, course_names_length]

/-! ### Lemmas about the sort comparison -/

theorem rank_le_iff (a b : RankingRow) : rank_le a b = true ↔ rank_rel a b := by
  simp [rank_le, rank_rel]

theorem rank_le_trans :
    ∀ a b c : RankingRow, rank_le a b → rank_le b c → rank_le a c := by
  intro a b c hab hbc
  rw [rank_le_iff] at hab hbc ⊢
  rcases hab with h | ⟨e, hc⟩ <;> rcases hbc with h2 | ⟨e2, hc2⟩
  · exact Or.inl (h.trans h2)
  · exact Or.inl (lt_of_lt_of_le h (le_of_eq e2))
  · exact Or.inl (lt_of_le_of_lt (le_of_eq e) h2)
  · exact Or.inr ⟨e.trans e2, hc2.trans hc⟩

theorem rank_le_total : ∀ a b : RankingRow, rank_le a b || rank_le b a := by
  intro a b
  simp only [Bool.or_eq_true, rank_le_iff]
  rcases lt_trichotomy a.avgRating b.avgRating with h | h | h
  · exact Or.inl (Or.inl h)
  · rcases Nat.le_total b.count a.count with hc | hc
    · exact Or.inl (Or.inr ⟨h, hc⟩)
    · exact Or.inr (Or.inr ⟨h.symm, hc⟩)
  · exact Or.inr (Or.inl h)

/-- C1: after Step 7 the ranking table is sorted: every adjacent pair
satisfies strictly smaller average, or equal average and at least as
large a count; and the sort is stable — two rows with equal keys keep
their pre-sort relative order. -/
theorem c1_ranking_sorted (t : RawTable) :
    List.Chain' rank_rel (rankingTable t) ∧
    (∀ a b : RankingRow, a.avgRating = b.avgRating → a.count = b.count →
      List.Sublist [a, b] (stats t) → List.Sublist [a, b] (rankingTable t)) := by
  constructor
  · have hp := List.sorted_mergeSort rank_le_trans rank_le_total (stats t)
    exact (hp.imp fun h => (rank_le_iff _ _).mp h).chain'
  · intro a b he hc hsub
    exact List.pair_sublist_mergeSort rank_le_trans rank_le_total
      ((rank_le_iff a b).mpr (Or.inr ⟨he, le_of_eq hc.symm⟩)) hsub

/-- C4: for a valid input (at least 19 columns, distinct derived names)
the ranking table has exactly 8 rows, as many as the selected column
span, carrying exactly the derived course names, one each. -/
theorem c4_eight_rows (t : RawTable) (h19 : 19 ≤ t.headers.length)
    (hnd : (course_names t).Nodup) :
    (rankingTable t).length = 8 ∧
    (rankingTable t).length = target_cols_indices.length ∧
    target_cols t = (t.headers.drop 11).take 8 ∧
    List.Perm ((rankingTable t).map RankingRow.course) (course_names t) ∧
    ((rankingTable t).map RankingRow.course).Nodup := by
  have htc : target_cols t = (t.headers.drop 11).take 8 := by
    apply List.ext_getElem
    · simp only [target_cols, target_cols_indices, List.length_map, List.length_range',
        List.length_take, List.length_drop]
      omega
    · intro i h1 h2
      simp only [target_cols, target_cols_indices, List.getElem_map, List.getElem_range',
        List.getElem_take, List.getElem_drop, one_mul]
      have hi : i < 8 := by
        simpa [target_cols, target_cols_indices] using h1
      have hb : 11 + i < t.headers.length := by omega
      exact List.getD_eq_getElem t.headers "" hb
  have hperm : List.Perm ((rankingTable t).map RankingRow.course) (course_names t) := by
    have h1 := (List.mergeSort_perm (stats t) rank_le).map RankingRow.course
    unfold stats at h1
    rw [statsFrom_map_course t 0 (course_names t)] at h1
    exact h1
  have hlen : (rankingTable t).length = 8 := by
    have h2 := hperm.length_eq
    rw [List.length_map] at h2
    rw [h2, course_names_length]
  exact ⟨hlen, by rw [hlen]; rfl, htc, hperm, hperm.nodup_iff.mpr hnd⟩

/-- C5: body row 0 (the metadata row) is skipped before any numeric
processing: replacing it by anything else changes neither the cleaned
data, the aggregates, nor the ranking. -/
theorem c5_metadata_row_excluded (headers : List String) (r1 r2 : List Cell)
    (rest : List (List Cell)) :
    data_cleaned ⟨headers, r1 :: rest⟩ = data_cleaned ⟨headers, r2 :: rest⟩ ∧
    stats ⟨headers, r1 :: rest⟩ = stats ⟨headers, r2 :: rest⟩ ∧
    rankingTable ⟨headers, r1 :: rest⟩ = rankingTable ⟨headers, r2 :: rest⟩ :=
  ⟨rfl, rfl, rfl⟩

/-- C7: each ranking row's count is the number of cleaned rows and its
average rating is the column sum divided by that count — the exact
arithmetic mean of the column's cleaned values when any rows remain. -/
theorem c7_aggregate (t : RawTable) (j : ℕ) (hj : j < (stats t).length) :
    ((stats t).getD j default).count = final_count t ∧
    ((stats t).getD j default).avgRating = (colValues t j).sum / (final_count t : ℚ) ∧
    (final_count t ≠ 0 →
      ((stats t).getD j default).avgRating * (final_count t : ℚ) = (colValues t j).sum) := by
  have hj' : j < (course_names t).length := by
    rw [course_names_length]
    rw [stats_length] at hj
    exact hj
  have h := statsFrom_getD t (course_names t) 0 j hj'
  rw [Nat.zero_add] at h
  unfold stats
  rw [h]
  refine ⟨colValues_length t j, ?_, ?_⟩
  · simp only [mean, colValues_length t j]
  · intro hne
    simp only [mean, colValues_length t j]
    rw [div_mul_cancel₀]
    exact Nat.cast_ne_zero.mpr hne

/-- C10: every ranking row carries the same count, the number of rows
surviving cleaning (the reported final row count). -/
theorem c10_uniform_counts (t : RawTable) :
    (∀ r ∈ rankingTable t, r.count = final_count t) ∧
    (∀ r ∈ rankingTable t, ∀ s ∈ rankingTable t, r.count = s.count) := by
  have hmem : ∀ r ∈ rankingTable t, r.count = final_count t := by
    intro r hr
    exact statsFrom_count t 0 (course_names t) r (List.mem_mergeSort.mp hr)
  exact ⟨hmem, fun r hr s hs => (hmem r hr).trans (hmem s hs).symm⟩

/-! ### The chart reversal -/

theorem iloc_rev_eq_reverse (l : List RankingRow) : iloc_rev l = l.reverse := by
  apply List.ext_getElem
  · simp [iloc_rev]
  · intro i h1 h2
    simp only [iloc_rev, List.getElem_map, List.getElem_range, List.getElem_reverse]
    have hi : i < l.length := by simpa [iloc_rev] using h1
    exact List.getD_eq_getElem l default (by omega)

/-- C9: the (course, value) pairs supplied to the chart are exactly the
reversal of the in-memory ranking order, so the best-ranked course (the
head of the ranking) is the last bar plotted, i.e. the top of the
chart. -/
theorem c9_chart_reversed (t : RawTable) :
    plot_pairs t = ((rankingTable t).map (fun r => (r.course, r.avgRating))).reverse ∧
    (plot_pairs t).getLast? = ((rankingTable t).head?).map (fun r => (r.course, r.avgRating)) := by
  have h1 : plot_pairs t = ((rankingTable t).map (fun r => (r.course, r.avgRating))).reverse := by
    unfold plot_pairs
    rw [iloc_rev_eq_reverse, List.map_reverse]
  refine ⟨h1, ?_⟩
  rw [h1, List.getLast?_reverse, List.head?_map]

/-! ### Control flow -/

/-- C6: when the input file does not exist the program prints the error
message and returns normally (a non-error early return), creating no
output artifact of any kind. -/
theorem c6_missing_file (evs : List Event) (h : run InputFile.missing = Except.ok evs) :
    (run InputFile.missing).isOk = true ∧
    evs.countP is_output_write = 0 ∧
    Event.printed ("Error: File " ++ file_path ++ " not found.") ∈ evs := by
  have hevs : evs =
      [Event.printed ("Loading data from " ++ file_path ++ "..."),
       Event.printed ("Error: File " ++ file_path ++ " not found.")] := by
    simp only [run] at h
    exact (Except.ok.inj h).symm
  subst hevs
  exact ⟨rfl, by decide, by decide⟩

/-- Witness for C6: the missing-file run, with its concrete event
trace. -/
theorem c6_missing_file_witness :
    (run InputFile.missing).isOk = true ∧
    List.countP is_output_write
      [Event.printed ("Loading data from " ++ file_path ++ "..."),
       Event.printed ("Error: File " ++ file_path ++ " not found.")] = 0 := by
  have h := c6_missing_file
    [Event.printed ("Loading data from " ++ file_path ++ "..."),
     Event.printed ("Error: File " ++ file_path ++ " not found.")] rfl
  exact ⟨h.1, h.2.1⟩

/-- C8 (amended): the only handled error is file-not-found; an
unreadable spreadsheet or a sheet with fewer than 19 columns raises an
uncaught exception; but a dataset whose rows are all non-numeric does
not raise — the run still succeeds (see the counterexample). -/
theorem c8_error_handling :
    (run InputFile.missing).isOk = true ∧
    run InputFile.malformed = Except.error RunError.excelError ∧
    (∀ t : RawTable, t.headers.length < 19 →
      run (InputFile.wellFormed t) = Except.error RunError.indexError) ∧
    (∀ t : RawTable, 19 ≤ t.headers.length →
      (run (InputFile.wellFormed t)).isOk = true) := by
  refine ⟨rfl, rfl, ?_, ?_⟩
  · intro t ht
    simp only [run]
    rw [if_pos ht]
  · intro t ht
    simp only [run]
    rw [if_neg (Nat.not_lt.mpr ht)]
    rfl

/-- Witness for C8 (amended): a 0-column sheet raises `IndexError`; the
example sheet runs to completion. -/
theorem c8_error_handling_witness :
    run (InputFile.wellFormed (RawTable.mk [] [])) = Except.error RunError.indexError ∧
    (run (InputFile.wellFormed ex_table)).isOk = true :=
  ⟨c8_error_handling.2.2.1 (RawTable.mk [] []) (by decide),
   c8_error_handling.2.2.2 ex_table (by decide)⟩

/-- Counterexample to C8 as stated: on a sheet whose entire dataset is
non-numeric (every data row is dropped by cleaning) the program does not
raise — the run succeeds and still performs all three output writes
(directory, CSV, chart). -/
theorem c8_counterexample :
    data_cleaned allna_table = [] ∧
    (run (InputFile.wellFormed allna_table)).isOk = true ∧
    ((run (InputFile.wellFormed allna_table)).toOption.getD []).countP is_output_write = 3 := by
  refine ⟨by decide, ?_, ?_⟩
  · simp only [run]
    rw [if_neg (show ¬ allna_table.headers.length < 19 by decide)]
    rfl
  · simp only [run]
    rw [if_neg (show ¬ allna_table.headers.length < 19 by decide)]
    rfl

/-! ### Witnesses that evaluate the pipeline on the example sheet -/

section RatEval

attribute [local semireducible] Rat.add Rat.mul Rat.inv Rat.sub

/-- Witness for C1: two rows of the example sheet with equal keys keep
their pre-sort order in the ranking table. -/
theorem c1_ranking_sorted_witness :
    ((stats ex_table).getD 0 default).avgRating = ((stats ex_table).getD 1 default).avgRating ∧
    ((stats ex_table).getD 0 default).count = ((stats ex_table).getD 1 default).count ∧
    List.Sublist [(stats ex_table).getD 0 default, (stats ex_table).getD 1 default]
      (rankingTable ex_table) :=
  ⟨by decide, by decide,
   (c1_ranking_sorted ex_table).2 _ _ (by decide) (by decide) (by decide)⟩

/-- Witness for C4: the example sheet has 19 headers, distinct course
names, and its ranking table has exactly 8 rows. -/
theorem c4_eight_rows_witness :
    19 ≤ ex_table.headers.length ∧ (rankingTable ex_table).length = 8 :=
  ⟨by decide, (c4_eight_rows ex_table (by decide) (by decide)).1⟩

/-- Witness for C7: the end-to-end scenario — 10 data rows, 2 dropped,
course column 0 cleans to `[1,2,1,2,1,2,1,2]`, and its ranking row
reports average 3/2 and count 8. -/
theorem c7_aggregate_witness :
    colValues ex_table 0 = [1, 2, 1, 2, 1, 2, 1, 2] ∧
    initial_count ex_table = 10 ∧
    final_count ex_table = 8 ∧
    ((stats ex_table).getD 0 default).avgRating = 3 / 2 ∧
    ((stats ex_table).getD 0 default).count = final_count ex_table :=
  ⟨by decide, by decide, by decide, by decide,
   (c7_aggregate ex_table 0 (by decide)).1⟩

/-- Witness for C10: a concrete ranking row of the example sheet carries
the final cleaned row count. -/
theorem c10_uniform_counts_witness :
    (stats ex_table).getD 0 default ∈ rankingTable ex_table ∧
    ((stats ex_table).getD 0 default).count = final_count ex_table :=
  ⟨List.mem_mergeSort.mpr (by decide),
   (c10_uniform_counts ex_table).1 _ (List.mem_mergeSort.mpr (by decide))⟩

end RatEval

end ProcessData
